import Mathlib

/-!
Verification of the XDTS export engine (`xdts_core/exporter.py`) of the
KritaToXDTS plugin.  The engine's state and control flow are shallowly
embedded: external collaborators (Krita document, layer rendering, the
frame exporter, the cancellation callback) are modelled as oracle data
carried by the input structures, and the imperative `_run_export` loop is
modelled as explicit state passing.  Helper modules of the repository that
are not part of the provided sources (`utils.py`, `xdts_file.py`) are
modelled from the specification and marked as such in their doc comments.
-/

namespace KXdts

/-! ### Constants from `config.py` -/

/-- Sentinel cell marker, `SYMBOL_NULL_CELL` in `config.py`. -/
def SYMBOL_NULL_CELL : String := "SYMBOL_NULL_CELL"

/-- XDTS format version, `XDTS_VERSION` in `config.py`. -/
def XDTS_VERSION : Nat := 5

/-! ### Utilities (`utils.py`, modelled from the spec) -/

/-- Modelled from the spec: `utils.py` is not among the provided sources.
Per section 4.2, `sanitize(name)` strips/replaces characters unsafe for
filesystem paths and never returns an empty string (a default placeholder
is substituted when the input reduces to empty). -/
def sanitize_filename (name : String) : String :=
  let cleaned := String.mk (name.data.filter fun c =>
    c.isAlphanum || c = '_' || c = '-' || c = ' ')
  if cleaned = "" then "layer" else cleaned

/-- Candidate name tried by `make_unique_name` at attempt `k`
(`base` itself first, then `base_2`, `base_3`, ...). -/
def unique_candidate (base : String) (k : Nat) : String :=
  if k ≤ 1 then base else base ++ "_" ++ toString k

/-- Fuelled search used by `make_unique_name`. -/
def make_unique_aux (base : String) (used : List String) : Nat → Nat → String
  | 0, k => unique_candidate base k
  | fuel + 1, k =>
    if unique_candidate base k ∈ used then make_unique_aux base used fuel (k + 1)
    else unique_candidate base k

/-- Modelled from the spec: `utils.py` is not among the provided sources.
Per section 4.2, `make_unique(base_name, used_set)` appends a
disambiguating numeric suffix (`_2`, `_3`, ...) while the candidate is in
`used_set`, and registers the result before returning. -/
def make_unique_name (base : String) (used : List String) : String × List String :=
  let n := make_unique_aux base used (used.length + 1) 1
  (n, used ++ [n])

/-- Modelled from the spec: `utils.py` is not among the provided sources.
Per section 4.2, the sequence number is rendered as a fixed-width
zero-padded decimal string; width 4 is the spec's example width. -/
def int_to_str (n : Nat) : String :=
  let s := toString n
  String.mk (List.replicate (4 - s.length) '0' ++ s.data)

/-- Model of `os.path.join` restricted to the two-argument form used by the engine. -/
def pathJoin (a b : String) : String := a ++ "/" ++ b

/-! ### XDTS document model (`xdts_file.py`, modelled from the spec) -/

/-- One track entry: an offset (relative to the range start) paired with a
cell, which is either a decimal label or the null-cell marker.  Models the
entries produced by `add_frame_to_track` / `add_track_terminator`
(spec section 3, "Track entry"). -/
structure Entry where
  offset : Int
  cell : String
deriving Repr, DecidableEq

/-- One track of the XDTS document (spec section 3, "Track"). -/
structure Track where
  name : String
  index : Nat
  entries : List Entry
deriving Repr, DecidableEq

/-- The in-memory XDTS document model (spec section 3, "Document model"). -/
structure XdtsDoc where
  version : Nat
  duration : Int
  tracks : List Track
deriving Repr, DecidableEq

/-- Modelled from the spec: `xdts_file.py` is not among the provided
sources.  `create_xdts_document(duration)` initializes an empty document
model (spec section 4.5). -/
def create_xdts_document (duration : Int) : XdtsDoc :=
  ⟨XDTS_VERSION, duration, []⟩

/-- Modelled from the spec: `xdts_file.py` is not among the provided
sources.  `add_frame_to_track` appends one `(offset, cell)` entry to a
track's entry list (spec sections 3 and 4.4). -/
def add_frame_to_track (es : List Entry) (offset : Int) (cell : String) : List Entry :=
  es ++ [⟨offset, cell⟩]

/-- Modelled from the spec: `xdts_file.py` is not among the provided
sources.  `add_track_terminator(track, duration)` appends the terminator
entry `(offset = duration, cell = NullCell)` (spec sections 3 invariant (c)
and 4.4). -/
def add_track_terminator (es : List Entry) (duration : Int) : List Entry :=
  es ++ [⟨duration, SYMBOL_NULL_CELL⟩]

/-! ### Export options and result (`exporter.py`) -/

/-- Constant `ExportOptions.FORMAT_SEQ_ONLY`. -/
def FORMAT_SEQ_ONLY : Nat := 0

/-- Constant `ExportOptions.FORMAT_LAYER_SEQ`. -/
def FORMAT_LAYER_SEQ : Nat := 1

/-- The fields of `ExportOptions` consumed by the export run.
`file_pfx` embeds the source field holding the configured filename
left part (the source spells it with the full word). -/
structure ExportOptions where
  include_static : Bool := false
  file_format : Nat := FORMAT_LAYER_SEQ
  file_pfx : String := ""
  file_suffix : String := ""
  file_separator : String := "_"
  export_name : String := ""
  image_format : String := "png"
deriving Repr

/-- Mirror of `ExportResult`, with the defaults set in its `__init__`. -/
structure ExportResult where
  success : Bool := false
  output_path : String := ""
  track_count : Nat := 0
  frame_count : Nat := 0
  unique_frames_exported : Nat := 0
  error_message : String := ""
deriving Repr, DecidableEq

/-! ### Collaborator oracles

One animated layer together with the behaviour, at each frame, of the
external collaborators the engine consults for it: the keyframe
enumeration (`get_layer_keyframes`), the stop-frame detector
(`is_stop_frame`), the content fingerprint of the layer's pixels at that
frame (`compute_content_hash` over `projectionPixelData`), and whether
`FrameExporter.export_frame` succeeds at that frame. -/

structure AnimLayer where
  name : String
  keyframes : List Int
  is_stop : Int → Bool
  fingerprint : Int → Nat
  export_ok : Int → Bool

/-- One static layer and whether its single-image export succeeds. -/
structure StaticLayer where
  name : String
  export_ok : Bool

/-- All the inputs of one `_run_export` call: document range, layer lists
(as returned by the layer collaborators), options, and the cancellation
callback, modelled as the answer of the k-th `on_cancelled()` poll. -/
structure RunParams where
  export_path : String
  options : ExportOptions
  animated_layers : List AnimLayer
  static_layers : List StaticLayer
  start_frame : Int
  end_frame : Int
  cancel : Nat → Bool

/-- Definition `duration = end_frame - start_frame + 1` from `_run_export`. -/
def duration (p : RunParams) : Int := p.end_frame - p.start_frame + 1

/-- The static layers actually processed: `get_static_layers` is consulted
only when `include_static` is set. -/
def static_layers_of (p : RunParams) : List StaticLayer :=
  if p.options.include_static then p.static_layers else []

/-! ### Run state -/

/-- The mutable state of one `_run_export` call: the `halted` flag models
the early `return` statements, `checks` counts `_is_cancelled()` polls,
`exports` records every `FrameExporter.export_frame` call as a
`(frame, filepath)` pair, and `writes` counts `write_xdts_file` calls. -/
structure RunSt where
  halted : Bool := false
  result : ExportResult := {}
  doc : XdtsDoc
  checks : Nat := 0
  processed : Nat := 0
  total_unique : Nat := 0
  static_exported : Nat := 0
  used_layer_names : List String := []
  exports : List (Int × String) := []
  writes : Nat := 0

/-- Error message of the cancellation early return in `_run_export`. -/
def cancelMsg : String := "Export cancelled by user"

/-- Error message of the fatal animated-frame failure in `_run_export`. -/
def failMsg (frame : Int) (layer_name : String) : String :=
  "Failed to export frame " ++ toString frame ++ " of " ++ layer_name

/-- Error message of the no-layers early return in `_run_export`. -/
def noLayersMsg : String := "No exportable layers found"

/-! ### `_build_filename` and `_process_frame` -/

/-- Embedding of `XDTSExportEngine._build_filename`: joins the configured parts with the
separator and appends the extension. -/
def build_filename (opts : ExportOptions) (layer_name : String) (cell_number : Nat) : String :=
  let sep := opts.file_separator
  let pfx := opts.file_pfx
  let sfx := opts.file_suffix
  let seq := int_to_str cell_number
  let parts : List String := []
  let parts := if pfx ≠ "" then parts ++ [pfx] else parts
  let parts := if opts.file_format = FORMAT_LAYER_SEQ then parts ++ [layer_name] else parts
  let parts := if sfx ≠ "" then parts ++ [sfx] else parts
  let parts := parts ++ [seq]
  String.intercalate sep parts ++ "." ++ opts.image_format

/-- Result of `_process_frame`: the returned cell label (`none` models the
Python `None` on export failure), the updated `hash_to_label` cache, and
the `export_frame` calls made. -/
structure FrameOut where
  label : Option String
  hash_to_label : List (Nat × String)
  exports_made : List (Int × String)

/-- Embedding of `XDTSExportEngine._process_frame`: looks the frame's content
fingerprint up in the per-track cache; on a hit returns the stored label,
otherwise assigns label `str(len(cache) + 1)`, records it, and exports the
image under the built filename. -/
def process_frame (opts : ExportOptions) (L : AnimLayer) (frame : Int)
    (layer_name layer_folder : String) (hash_to_label : List (Nat × String)) : FrameOut :=
  let content_hash := L.fingerprint frame
  match hash_to_label.lookup content_hash with
  | some lbl => ⟨some lbl, hash_to_label, []⟩
  | none =>
    let cell_number := hash_to_label.length + 1
    let cell_label := toString cell_number
    let h' := hash_to_label ++ [(content_hash, cell_label)]
    let filename := build_filename opts layer_name cell_number
    let filepath := pathJoin layer_folder filename
    if L.export_ok frame then ⟨some cell_label, h', [(frame, filepath)]⟩
    else ⟨none, h', [(frame, filepath)]⟩

/-- Python `cell_num = int(cell_label) if cell_label.isdigit() else 0`. -/
def cellNumOf (s : String) : Nat :=
  if s ≠ "" ∧ s.data.all Char.isDigit then s.toNat! else 0

/-! ### The per-keyframe loop of `_run_export` -/

/-- State local to one animated layer's keyframe loop, together with the
threaded run state: the track's entry list built so far, the per-track
`hash_to_label` deduplication cache, `cell_count`, and the
`last_was_stop_frame` flag. -/
structure LSt where
  run : RunSt
  entries : List Entry
  hash_to_label : List (Nat × String)
  cell_count : Nat
  last_was_stop : Bool

/-- One iteration of the keyframe loop in `_run_export`: cancellation
check, progress accounting, stop-frame handling, deduplicated frame
processing, and the fatal-failure early return. -/
def key_step (p : RunParams) (L : AnimLayer) (layer_name layer_folder : String)
    (s : LSt) (frame : Int) : LSt :=
  if s.run.halted then s
  else if p.cancel s.run.checks then
    { s with run := { s.run with
        halted := true
        checks := s.run.checks + 1
        result := { s.run.result with error_message := cancelMsg } } }
  else
    let run := { s.run with checks := s.run.checks + 1, processed := s.run.processed + 1 }
    let relative_frame := frame - p.start_frame
    if L.is_stop frame then
      { s with run := run
               entries := add_frame_to_track s.entries relative_frame SYMBOL_NULL_CELL
               last_was_stop := true }
    else
      let fo := process_frame p.options L frame layer_name layer_folder s.hash_to_label
      let run := { run with exports := run.exports ++ fo.exports_made }
      match fo.label with
      | none =>
        { s with
            run := { run with
              halted := true
              result := { run.result with error_message := failMsg frame layer_name } }
            hash_to_label := fo.hash_to_label
            last_was_stop := false }
      | some cell_label =>
        let cell_num := cellNumOf cell_label
        { run := { run with
            total_unique := if s.cell_count < cell_num then run.total_unique + 1
                            else run.total_unique }
          entries := add_frame_to_track s.entries relative_frame cell_label
          hash_to_label := fo.hash_to_label
          cell_count := if s.cell_count < cell_num then cell_num else s.cell_count
          last_was_stop := false }

/-- The keyframe loop of `_run_export`, iterated over the layer's
keyframes in order. -/
def process_keyframes (p : RunParams) (L : AnimLayer) (layer_name layer_folder : String) :
    List Int → LSt → LSt
  | [], s => s
  | f :: fs, s =>
    process_keyframes p L layer_name layer_folder fs (key_step p L layer_name layer_folder s f)

/-- Processing of one animated layer in `_run_export`: name resolution,
fresh deduplication cache, the keyframe loop, track termination (skipped
on an early return and after a final stop frame), and the `frame_count`
accumulation. -/
def process_layer (p : RunParams) (track_no : Nat) (L : AnimLayer) (st : RunSt) : RunSt :=
  if st.halted then st
  else
    let base_name := sanitize_filename L.name
    let r := make_unique_name base_name st.used_layer_names
    let layer_name := r.1
    let layer_folder := pathJoin p.export_path layer_name
    let st0 := { st with used_layer_names := r.2 }
    let s := process_keyframes p L layer_name layer_folder L.keyframes
      ⟨st0, [], [], 0, false⟩
    if s.run.halted then
      { s.run with doc := { s.run.doc with
          tracks := s.run.doc.tracks ++ [⟨layer_name, track_no, s.entries⟩] } }
    else
      let es := if s.last_was_stop then s.entries
                else add_track_terminator s.entries (duration p)
      { s.run with
          doc := { s.run.doc with
            tracks := s.run.doc.tracks ++ [⟨layer_name, track_no, es⟩] }
          result := { s.run.result with
            frame_count := s.run.result.frame_count + L.keyframes.length } }

/-- The animated-layer loop of `_run_export`, with `enumerate`'s index. -/
def process_layers (p : RunParams) : Nat → List AnimLayer → RunSt → RunSt
  | _, [], st => st
  | n, L :: Ls, st => process_layers p (n + 1) Ls (process_layer p n L st)

/-- Processing of one static layer in `_run_export`: cancellation check,
single-image export directly in the export directory, export failure
reported as a warning only. -/
def process_static (p : RunParams) (S : StaticLayer) (st : RunSt) : RunSt :=
  if st.halted then st
  else if p.cancel st.checks then
    { st with
        halted := true
        checks := st.checks + 1
        result := { st.result with error_message := cancelMsg } }
  else
    let base_name := sanitize_filename S.name
    let r := make_unique_name base_name st.used_layer_names
    let filename := r.1 ++ "." ++ p.options.image_format
    let filepath := pathJoin p.export_path filename
    let st := { st with
        checks := st.checks + 1
        processed := st.processed + 1
        used_layer_names := r.2
        exports := st.exports ++ [(p.start_frame, filepath)] }
    if S.export_ok then { st with static_exported := st.static_exported + 1 } else st

/-- The static-layer loop of `_run_export`. -/
def process_statics (p : RunParams) : List StaticLayer → RunSt → RunSt
  | [], st => st
  | S :: Ss, st => process_statics p Ss (process_static p S st)

/-- The state at entry of `_run_export`, after `create_xdts_document`. -/
def initial_state (p : RunParams) : RunSt :=
  { doc := create_xdts_document (duration p) }

/-- Embedding of `XDTSExportEngine._run_export`: the no-layers early return, the two
layer loops, and on completion the single `write_xdts_file` call and the
success fields of the result. -/
def run_export (p : RunParams) : RunSt :=
  let statics := static_layers_of p
  if p.animated_layers.isEmpty && statics.isEmpty then
    { initial_state p with
        halted := true
        result := { (initial_state p).result with error_message := noLayersMsg } }
  else
    let st := process_layers p 0 p.animated_layers (initial_state p)
    let st := process_statics p statics st
    if st.halted then st
    else
      let xdts_filename := if p.options.export_name ≠ "" then
          sanitize_filename p.options.export_name else "export"
      let xdts_path := pathJoin p.export_path (xdts_filename ++ ".xdts")
      { st with
          writes := st.writes + 1
          result := { st.result with
            success := true
            output_path := xdts_path
            track_count := p.animated_layers.length
            unique_frames_exported := st.total_unique + st.static_exported } }

/-! ### Pure view of the deduplication cache

The cache manipulation inside `_process_frame`, isolated from rendering
and export: look the fingerprint up, and on a miss assign the label
`str(len(cache) + 1)` and record it. -/

/-- The cache transition of `_process_frame` (spec section 4.3,
`lookup_or_assign`): the returned label and the updated cache. -/
def lookup_or_assign (fp : Nat) (h : List (Nat × String)) : String × List (Nat × String) :=
  match h.lookup fp with
  | some lbl => (lbl, h)
  | none => (toString (h.length + 1), h ++ [(fp, toString (h.length + 1))])

/-- Labels received by a sequence of fingerprints fed through
`lookup_or_assign` from a given cache. -/
def dedup_labels : List Nat → List (Nat × String) → List String
  | [], _ => []
  | fp :: fps, h => (lookup_or_assign fp h).1 :: dedup_labels fps (lookup_or_assign fp h).2

/-- The cache obtained after feeding a sequence of fingerprints through
`lookup_or_assign`. -/
def dedup_cache : List Nat → List (Nat × String) → List (Nat × String)
  | [], h => h
  | fp :: fps, h => dedup_cache fps (lookup_or_assign fp h).2

/-- The distinct fingerprints of a sequence in first-seen order,
continuing a given prefix of already-seen fingerprints. -/
def first_seen_from (acc : List Nat) : List Nat → List Nat
  | [] => acc
  | fp :: fps =>
    if fp ∈ acc then first_seen_from acc fps else first_seen_from (acc ++ [fp]) fps

/-- The distinct fingerprints of a sequence in first-seen order. -/
def first_seen (fps : List Nat) : List Nat := first_seen_from [] fps

/-- The canonical cache contents after some distinct fingerprints `ds`
have been assigned labels, the first one numbered `k + 1`. -/
def canon_from (k : Nat) : List Nat → List (Nat × String)
  | [] => []
  | fp :: ds => (fp, toString (k + 1)) :: canon_from (k + 1) ds

/-- The canonical cache contents: the i-th distinct fingerprint mapped to
the label `str(i + 1)`. -/
def canon (ds : List Nat) : List (Nat × String) := canon_from 0 ds

/-- The cell labels of a track's entries, the null-cell markers dropped. -/
def nonNullCells (es : List Entry) : List String :=
  (es.filter fun e => e.cell != SYMBOL_NULL_CELL).map Entry.cell

/-- Embedding of `XDTSExportEngine.export`: wraps `_run_export` in a `try`/`except`
that turns any raised exception into a failed result carrying the
exception's text.  The argument models the run's outcome: `Except.ok r`
for a normal return with result `r`, `Except.error (e, r)` for an
exception with text `e` raised while `self._result` held `r`. -/
def export_entry : Except (String × ExportResult) ExportResult → ExportResult
  | Except.ok r => r
  | Except.error (e, r) => { r with success := false, error_message := e }

/-! ### Facts about decimal rendering of naturals

The cell labels are produced by Python's `str` on positive integers,
embedded as `toString : Nat → String`, which is `Nat.repr`.  The claims
need that this rendering is injective and yields digit-only strings, which
this Mathlib snapshot does not provide; both facts are derived here from
the fuelled `Nat.toDigitsCore`. -/

/-- Numeric value of a digit character. -/
def digitVal (c : Char) : Nat := c.toNat - 48

/-- Value of a digit-character list read as a decimal numeral. -/
def valOfDigits (l : List Char) : Nat := l.foldl (fun acc c => acc * 10 + digitVal c) 0

theorem valOfDigits_append_singleton (xs : List Char) (c : Char) :
    valOfDigits (xs ++ [c]) = valOfDigits xs * 10 + digitVal c := by
  simp [valOfDigits, List.foldl_append]

theorem digitVal_digitChar (d : Nat) (hd : d < 10) : digitVal (Nat.digitChar d) = d := by
  interval_cases d <;> rfl

theorem digitChar_isDigit (d : Nat) (hd : d < 10) : (Nat.digitChar d).isDigit = true := by
  interval_cases d <;> rfl

theorem toDigitsCore_append (f : Nat) : ∀ (n : Nat) (ds : List Char),
    Nat.toDigitsCore 10 f n ds = Nat.toDigitsCore 10 f n [] ++ ds := by
  induction f with
  | zero => intro n ds; simp [Nat.toDigitsCore]
  | succ f ih =>
    intro n ds
    simp only [Nat.toDigitsCore]
    by_cases h : n / 10 = 0
    · simp [h]
    · simp only [h, if_false]
      rw [ih (n / 10) [Nat.digitChar (n % 10)], ih (n / 10) (Nat.digitChar (n % 10) :: ds)]
      simp

theorem valOfDigits_toDigitsCore (f : Nat) : ∀ n : Nat, n < f →
    valOfDigits (Nat.toDigitsCore 10 f n []) = n := by
  induction f with
  | zero => intro n hn; omega
  | succ f ih =>
    intro n hn
    simp only [Nat.toDigitsCore]
    by_cases h : n / 10 = 0
    · have h10 : n < 10 := by omega
      have hd := digitVal_digitChar (n % 10) (Nat.mod_lt n (by omega))
      rw [Nat.mod_eq_of_lt h10] at hd
      simp [h, valOfDigits, Nat.mod_eq_of_lt h10, hd]
    · simp only [h, if_false]
      rw [toDigitsCore_append f (n / 10) [Nat.digitChar (n % 10)],
        valOfDigits_append_singleton,
        ih (n / 10) (by omega),
        digitVal_digitChar (n % 10) (Nat.mod_lt n (by omega))]
      omega

theorem valOfDigits_toDigits (n : Nat) : valOfDigits (Nat.toDigits 10 n) = n :=
  valOfDigits_toDigitsCore (n + 1) n (Nat.lt_succ_self n)

theorem natToString_injective : Function.Injective (fun n : Nat => toString n) := by
  intro m n h
  have hm : toString m = Nat.repr m := rfl
  have hn : toString n = Nat.repr n := rfl
  simp only [hm, hn, Nat.repr] at h
  have hdata : Nat.toDigits 10 m = Nat.toDigits 10 n := by
    have := congrArg String.data h
    simpa [List.asString] using this
  calc m = valOfDigits (Nat.toDigits 10 m) := (valOfDigits_toDigits m).symm
    _ = valOfDigits (Nat.toDigits 10 n) := by rw [hdata]
    _ = n := valOfDigits_toDigits n

theorem mem_toDigitsCore_isDigit (f : Nat) : ∀ (n : Nat) (ds : List Char) (c : Char),
    c ∈ Nat.toDigitsCore 10 f n ds → c ∈ ds ∨ c.isDigit = true := by
  induction f with
  | zero => intro n ds c hc; simp [Nat.toDigitsCore] at hc; exact Or.inl hc
  | succ f ih =>
    intro n ds c hc
    simp only [Nat.toDigitsCore] at hc
    by_cases h : n / 10 = 0
    · simp only [h, if_true] at hc
      rcases List.mem_cons.1 hc with h1 | h1
      · exact Or.inr (h1 ▸ digitChar_isDigit (n % 10) (Nat.mod_lt n (by omega)))
      · exact Or.inl h1
    · simp only [h, if_false] at hc
      rcases ih (n / 10) (Nat.digitChar (n % 10) :: ds) c hc with h1 | h1
      · rcases List.mem_cons.1 h1 with h2 | h2
        · exact Or.inr (h2 ▸ digitChar_isDigit (n % 10) (Nat.mod_lt n (by omega)))
        · exact Or.inl h2
      · exact Or.inr h1

theorem natToString_all_digits (n : Nat) (c : Char) (hc : c ∈ (toString n).data) :
    c.isDigit = true := by
  have hm : toString n = Nat.repr n := rfl
  rw [hm] at hc
  simp only [Nat.repr, List.asString] at hc
  rcases mem_toDigitsCore_isDigit (n + 1) n [] c hc with h | h
  · simp at h
  · exact h

theorem natToString_ne_null_cell (n : Nat) : toString n ≠ SYMBOL_NULL_CELL := by
  intro h
  have hS : 'S' ∈ (toString n).data := by
    rw [h]; decide
  have := natToString_all_digits n 'S' hS
  simp at this

/-! ### Correctness of the deduplication cache -/

theorem canon_from_length : ∀ (ds : List Nat) (k : Nat), (canon_from k ds).length = ds.length := by
  intro ds
  induction ds with
  | nil => intro k; rfl
  | cons d ds ih => intro k; simp [canon_from, ih]

theorem lookup_canon_from : ∀ (ds : List Nat) (k fp : Nat),
    (canon_from k ds).lookup fp =
      if fp ∈ ds then some (toString (k + ds.indexOf fp + 1)) else none := by
  intro ds
  induction ds with
  | nil => intro k fp; simp [canon_from, List.lookup]
  | cons d ds ih =>
    intro k fp
    by_cases h : fp = d
    · subst h
      simp [canon_from, List.lookup, List.indexOf_cons_self]
    · have hbeq : (fp == d) = false := beq_false_of_ne h
      simp only [canon_from, List.lookup, hbeq, ih (k + 1) fp]
      have hidx : (d :: ds).indexOf fp = ds.indexOf fp + 1 := by
        simpa using List.indexOf_cons_ne ds (Ne.symm h)
      by_cases hm : fp ∈ ds
      · simp [hm, h, hidx]
        congr 1
        omega
      · simp [hm, h]

theorem canon_from_append : ∀ (ds : List Nat) (k fp : Nat),
    canon_from k (ds ++ [fp]) = canon_from k ds ++ [(fp, toString (k + ds.length + 1))] := by
  intro ds
  induction ds with
  | nil => intro k fp; simp [canon_from]
  | cons d ds ih =>
    intro k fp
    rw [List.cons_append, canon_from, ih (k + 1) fp]
    have e : k + 1 + ds.length = k + (ds.length + 1) := by omega
    rw [e]
    simp [canon_from]

theorem lookup_or_assign_canon_mem (ds : List Nat) (fp : Nat) (hm : fp ∈ ds) :
    lookup_or_assign fp (canon ds) = (toString (ds.indexOf fp + 1), canon ds) := by
  simp [lookup_or_assign, canon, lookup_canon_from, hm]

theorem lookup_or_assign_canon_not_mem (ds : List Nat) (fp : Nat) (hm : fp ∉ ds) :
    lookup_or_assign fp (canon ds) = (toString (ds.length + 1), canon (ds ++ [fp])) := by
  simp [lookup_or_assign, canon, lookup_canon_from, hm, canon_from_length, canon_from_append]

theorem first_seen_from_eq_append : ∀ (l acc : List Nat), ∃ t, first_seen_from acc l = acc ++ t := by
  intro l
  induction l with
  | nil => intro acc; exact ⟨[], by simp [first_seen_from]⟩
  | cons fp fps ih =>
    intro acc
    by_cases h : fp ∈ acc
    · obtain ⟨t, ht⟩ := ih acc
      exact ⟨t, by simp [first_seen_from, h, ht]⟩
    · obtain ⟨t, ht⟩ := ih (acc ++ [fp])
      exact ⟨fp :: t, by simp [first_seen_from, h, ht]⟩

theorem mem_first_seen_from : ∀ (l acc : List Nat) (fp : Nat),
    fp ∈ first_seen_from acc l ↔ fp ∈ acc ∨ fp ∈ l := by
  intro l
  induction l with
  | nil => intro acc fp; simp [first_seen_from]
  | cons g gs ih =>
    intro acc fp
    by_cases h : g ∈ acc
    · rw [first_seen_from, if_pos h, ih]
      constructor
      · rintro (h1 | h1)
        · exact Or.inl h1
        · exact Or.inr (List.mem_cons_of_mem g h1)
      · rintro (h1 | h1)
        · exact Or.inl h1
        · rcases List.mem_cons.1 h1 with h2 | h2
          · exact Or.inl (h2 ▸ h)
          · exact Or.inr h2
    · rw [first_seen_from, if_neg h, ih]
      constructor
      · rintro (h1 | h1)
        · rcases List.mem_append.1 h1 with h2 | h2
          · exact Or.inl h2
          · simp at h2
            exact Or.inr (h2 ▸ List.mem_cons_self g gs)
        · exact Or.inr (List.mem_cons_of_mem g h1)
      · rintro (h1 | h1)
        · exact Or.inl (List.mem_append.2 (Or.inl h1))
        · rcases List.mem_cons.1 h1 with h2 | h2
          · exact Or.inl (List.mem_append.2 (Or.inr (by simp [h2])))
          · exact Or.inr h2

theorem indexOf_first_seen_from_of_mem (l acc : List Nat) (fp : Nat) (hm : fp ∈ acc) :
    (first_seen_from acc l).indexOf fp = acc.indexOf fp := by
  obtain ⟨t, ht⟩ := first_seen_from_eq_append l acc
  rw [ht, List.indexOf_append_of_mem hm]

theorem dedup_labels_spec : ∀ (fps ds : List Nat),
    dedup_labels fps (canon ds) =
      fps.map fun fp => toString ((first_seen_from ds fps).indexOf fp + 1) := by
  intro fps
  induction fps with
  | nil => intro ds; simp [dedup_labels]
  | cons fp rest ih =>
    intro ds
    by_cases hm : fp ∈ ds
    · rw [dedup_labels, lookup_or_assign_canon_mem ds fp hm, first_seen_from, if_pos hm,
        List.map_cons, indexOf_first_seen_from_of_mem rest ds fp hm, ih ds]
    · have hidx : (first_seen_from (ds ++ [fp]) rest).indexOf fp = ds.length := by
        rw [indexOf_first_seen_from_of_mem rest (ds ++ [fp]) fp (by simp),
          List.indexOf_append_of_not_mem hm]
        simp [List.indexOf_cons_self]
      rw [dedup_labels, lookup_or_assign_canon_not_mem ds fp hm, first_seen_from, if_neg hm,
        List.map_cons, hidx, ih (ds ++ [fp])]

theorem dedup_labels_nil_spec (fps : List Nat) :
    dedup_labels fps [] = fps.map fun fp => toString ((first_seen fps).indexOf fp + 1) :=
  dedup_labels_spec fps []

theorem dedup_labels_length : ∀ (fps : List Nat) (h : List (Nat × String)),
    (dedup_labels fps h).length = fps.length := by
  intro fps
  induction fps with
  | nil => intro h; rfl
  | cons fp rest ih => intro h; simp [dedup_labels, ih]

/-! ### Cache well-formedness

Every label stored in a `hash_to_label` cache arising in a run is the
decimal rendering of a positive integer. -/

/-- All labels in the cache are decimal renderings of positive naturals. -/
def WFCache (h : List (Nat × String)) : Prop :=
  ∀ pr ∈ h, ∃ m : Nat, pr.2 = toString (m + 1)

theorem WFCache_nil : WFCache [] := by
  intro pr hpr
  simp at hpr

theorem lookup_label_wf : ∀ (h : List (Nat × String)) (fp : Nat) (lbl : String),
    WFCache h → h.lookup fp = some lbl → ∃ m : Nat, lbl = toString (m + 1) := by
  intro h
  induction h with
  | nil => intro fp lbl _ hl; simp [List.lookup] at hl
  | cons pr t ih =>
    intro fp lbl hwf hl
    rw [List.lookup] at hl
    by_cases hfp : fp == pr.1
    · simp only [hfp] at hl
      obtain ⟨m, hm⟩ := hwf pr (List.mem_cons_self pr t)
      exact ⟨m, by rw [← Option.some_inj.1 hl, hm]⟩
    · rw [Bool.eq_false_iff.2 hfp] at hl
      exact ih fp lbl (fun q hq => hwf q (List.mem_cons_of_mem pr hq)) hl

theorem lookup_or_assign_label_wf (h : List (Nat × String)) (fp : Nat) (hwf : WFCache h) :
    ∃ m : Nat, (lookup_or_assign fp h).1 = toString (m + 1) := by
  rw [lookup_or_assign]
  cases hl : h.lookup fp with
  | some lbl => exact lookup_label_wf h fp lbl hwf hl
  | none => exact ⟨h.length, rfl⟩

theorem lookup_or_assign_cache_wf (h : List (Nat × String)) (fp : Nat) (hwf : WFCache h) :
    WFCache (lookup_or_assign fp h).2 := by
  rw [lookup_or_assign]
  cases hl : h.lookup fp with
  | some lbl => exact hwf
  | none =>
    intro pr hpr
    rcases List.mem_append.1 hpr with hm | hm
    · exact hwf pr hm
    · simp at hm
      exact ⟨h.length, by rw [hm]⟩

theorem lookup_or_assign_label_ne_null (h : List (Nat × String)) (fp : Nat) (hwf : WFCache h) :
    (lookup_or_assign fp h).1 ≠ SYMBOL_NULL_CELL := by
  obtain ⟨m, hm⟩ := lookup_or_assign_label_wf h fp hwf
  rw [hm]
  exact natToString_ne_null_cell (m + 1)

/-! ### Branch descriptions of `key_step` -/

theorem process_frame_eq_lookup_or_assign (opts : ExportOptions) (L : AnimLayer) (f : Int)
    (ln lf : String) (h : List (Nat × String)) (he : L.export_ok f = true) :
    (process_frame opts L f ln lf h).label = some (lookup_or_assign (L.fingerprint f) h).1 ∧
    (process_frame opts L f ln lf h).hash_to_label = (lookup_or_assign (L.fingerprint f) h).2 := by
  rw [process_frame, lookup_or_assign]
  cases hl : h.lookup (L.fingerprint f) with
  | some lbl => exact ⟨rfl, rfl⟩
  | none => simp [he]

theorem key_step_of_halted (p : RunParams) (L : AnimLayer) (ln lf : String) (s : LSt)
    (f : Int) (h : s.run.halted = true) : key_step p L ln lf s f = s := by
  rw [key_step, if_pos h]

theorem key_step_cancelled (p : RunParams) (L : AnimLayer) (ln lf : String) (s : LSt)
    (f : Int) (h0 : s.run.halted = false) (h1 : p.cancel s.run.checks = true) :
    key_step p L ln lf s f =
      { s with run := { s.run with
          halted := true
          checks := s.run.checks + 1
          result := { s.run.result with error_message := cancelMsg } } } := by
  rw [key_step, if_neg (by simp [h0]), if_pos h1]

theorem key_step_stop (p : RunParams) (L : AnimLayer) (ln lf : String) (s : LSt)
    (f : Int) (h0 : s.run.halted = false) (h1 : p.cancel s.run.checks = false)
    (h2 : L.is_stop f = true) :
    key_step p L ln lf s f =
      { s with
          run := { s.run with checks := s.run.checks + 1, processed := s.run.processed + 1 }
          entries := s.entries ++ [⟨f - p.start_frame, SYMBOL_NULL_CELL⟩]
          last_was_stop := true } := by
  rw [key_step, if_neg (by simp [h0]), if_neg (by simp [h1])]
  simp only [h2, if_true, add_frame_to_track]

theorem key_step_export_ok (p : RunParams) (L : AnimLayer) (ln lf : String) (s : LSt)
    (f : Int) (h0 : s.run.halted = false) (h1 : p.cancel s.run.checks = false)
    (h2 : L.is_stop f = false) (h3 : L.export_ok f = true) :
    key_step p L ln lf s f =
      { run := { s.run with
          checks := s.run.checks + 1
          processed := s.run.processed + 1
          exports := s.run.exports ++
            (process_frame p.options L f ln lf s.hash_to_label).exports_made
          total_unique :=
            if s.cell_count < cellNumOf (lookup_or_assign (L.fingerprint f) s.hash_to_label).1
            then s.run.total_unique + 1 else s.run.total_unique }
        entries := s.entries ++
          [⟨f - p.start_frame, (lookup_or_assign (L.fingerprint f) s.hash_to_label).1⟩]
        hash_to_label := (lookup_or_assign (L.fingerprint f) s.hash_to_label).2
        cell_count :=
          if s.cell_count < cellNumOf (lookup_or_assign (L.fingerprint f) s.hash_to_label).1
          then cellNumOf (lookup_or_assign (L.fingerprint f) s.hash_to_label).1
          else s.cell_count
        last_was_stop := false } := by
  obtain ⟨hlbl, hcache⟩ := process_frame_eq_lookup_or_assign p.options L f ln lf s.hash_to_label h3
  rw [key_step, if_neg (by simp [h0]), if_neg (by simp [h1])]
  simp only [h2, if_false, Bool.false_eq_true]
  rw [hlbl, hcache]
  simp only [add_frame_to_track]

theorem key_step_export_fail (p : RunParams) (L : AnimLayer) (ln lf : String) (s : LSt)
    (f : Int) (h0 : s.run.halted = false) (h1 : p.cancel s.run.checks = false)
    (h2 : L.is_stop f = false)
    (h3 : s.hash_to_label.lookup (L.fingerprint f) = none) (h4 : L.export_ok f = false) :
    key_step p L ln lf s f =
      { s with
          run := { s.run with
            halted := true
            checks := s.run.checks + 1
            processed := s.run.processed + 1
            exports := s.run.exports ++
              [(f, pathJoin lf (build_filename p.options ln (s.hash_to_label.length + 1)))]
            result := { s.run.result with error_message := failMsg f ln } }
          hash_to_label := s.hash_to_label ++
            [(L.fingerprint f, toString (s.hash_to_label.length + 1))]
          last_was_stop := false } := by
  rw [key_step, if_neg (by simp [h0]), if_neg (by simp [h1])]
  simp only [h2, if_false, Bool.false_eq_true]
  rw [process_frame, h3]
  simp [h4]

/-! ### The keyframe-loop invariant -/

/-- The content fingerprints of a layer's non-stop keyframes, in order. -/
def nonstop_fps (L : AnimLayer) (fs : List Int) : List Nat :=
  (fs.filter fun f => !L.is_stop f).map L.fingerprint

theorem nonNullCells_append (a b : List Entry) :
    nonNullCells (a ++ b) = nonNullCells a ++ nonNullCells b := by
  simp [nonNullCells]

theorem nonNullCells_null_singleton (off : Int) :
    nonNullCells [⟨off, SYMBOL_NULL_CELL⟩] = [] := by
  simp [nonNullCells]

theorem nonNullCells_label_singleton (off : Int) (lbl : String) (h : lbl ≠ SYMBOL_NULL_CELL) :
    nonNullCells [⟨off, lbl⟩] = [lbl] := by
  simp [nonNullCells, h]

/-- Master invariant of the keyframe loop of `_run_export`: with no
cancellation and all frame exports succeeding, the loop never takes an
early return, the deduplication cache evolves exactly as the pure
`lookup_or_assign` run over the non-stop fingerprints, the appended
entries carry the keyframes' relative offsets and exactly the labels of
that pure run, and the `last_was_stop_frame` flag ends as the stop status
of the last keyframe. -/
theorem pk_master (p : RunParams) (L : AnimLayer) (ln lf : String)
    (hc : ∀ k, p.cancel k = false) :
    ∀ (fs : List Int) (s : LSt), s.run.halted = false → WFCache s.hash_to_label →
    (∀ f ∈ fs, L.export_ok f = true) →
    (process_keyframes p L ln lf fs s).run.halted = false ∧
    WFCache (process_keyframes p L ln lf fs s).hash_to_label ∧
    (process_keyframes p L ln lf fs s).hash_to_label =
      dedup_cache (nonstop_fps L fs) s.hash_to_label ∧
    (∃ new, (process_keyframes p L ln lf fs s).entries = s.entries ++ new ∧
      (∀ e ∈ new, ∃ f ∈ fs, e.offset = f - p.start_frame) ∧
      nonNullCells new = dedup_labels (nonstop_fps L fs) s.hash_to_label) ∧
    (fs.getLast? = none →
      (process_keyframes p L ln lf fs s).last_was_stop = s.last_was_stop) ∧
    (∀ f, fs.getLast? = some f →
      (process_keyframes p L ln lf fs s).last_was_stop = L.is_stop f) ∧
    (∀ f, fs.getLast? = some f → L.is_stop f = true →
      (process_keyframes p L ln lf fs s).entries.getLast? =
        some ⟨f - p.start_frame, SYMBOL_NULL_CELL⟩) := by
  intro fs
  induction fs with
  | nil =>
    intro s h0 hwf _
    refine ⟨h0, hwf, rfl, ⟨[], by simp [process_keyframes], by simp,
      by simp [nonNullCells, nonstop_fps, dedup_labels]⟩,
      fun _ => rfl, fun f hf => by simp at hf, fun f hf _ => by simp at hf⟩
  | cons f rest ih =>
    intro s h0 hwf he
    have hef : L.export_ok f = true := he f (List.mem_cons_self f rest)
    have herest : ∀ g ∈ rest, L.export_ok g = true :=
      fun g hg => he g (List.mem_cons_of_mem f hg)
    by_cases hstop : L.is_stop f = true
    · -- stop frame: null entry appended, cache untouched
      have hstep := key_step_stop p L ln lf s f h0 (hc s.run.checks) hstop
      have hpk : process_keyframes p L ln lf (f :: rest) s =
          process_keyframes p L ln lf rest (key_step p L ln lf s f) := rfl
      rw [hpk, hstep]
      set s1 : LSt :=
        { s with
            run := { s.run with checks := s.run.checks + 1, processed := s.run.processed + 1 }
            entries := s.entries ++ [⟨f - p.start_frame, SYMBOL_NULL_CELL⟩]
            last_was_stop := true } with hs1
      obtain ⟨c1, c2, c3, ⟨new, hnew, hoffs, hcells⟩, c5, c6, c7⟩ := ih s1 h0 hwf herest
      have hfps : nonstop_fps L (f :: rest) = nonstop_fps L rest := by
        simp [nonstop_fps, hstop]
      refine ⟨c1, c2, by rw [c3, hfps], ?_, ?_, ?_, ?_⟩
      · refine ⟨⟨f - p.start_frame, SYMBOL_NULL_CELL⟩ :: new, ?_, ?_, ?_⟩
        · rw [hnew]; simp [hs1]
        · intro e hme
          rcases List.mem_cons.1 hme with h | h
          · exact ⟨f, List.mem_cons_self f rest, by rw [h]⟩
          · obtain ⟨g, hg, hoff⟩ := hoffs e h
            exact ⟨g, List.mem_cons_of_mem f hg, hoff⟩
        · have : (⟨f - p.start_frame, SYMBOL_NULL_CELL⟩ :: new : List Entry) =
              [⟨f - p.start_frame, SYMBOL_NULL_CELL⟩] ++ new := rfl
          rw [this, nonNullCells_append, nonNullCells_null_singleton, hcells, hfps]
          simp [hs1]
      · intro habs; simp at habs
      · intro g hg
        cases rest with
        | nil =>
          simp at hg
          subst hg
          exact hstop.symm
        | cons b t => exact c6 g (by simpa using hg)
      · intro g hg hgstop
        cases rest with
        | nil =>
          simp at hg
          subst hg
          exact List.getLast?_concat _
        | cons b t => exact c7 g (by simpa using hg) hgstop
    · -- content frame: deduplicated label appended
      have hstop' : L.is_stop f = false := by simpa using hstop
      have hstep := key_step_export_ok p L ln lf s f h0 (hc s.run.checks) hstop' hef
      have hpk : process_keyframes p L ln lf (f :: rest) s =
          process_keyframes p L ln lf rest (key_step p L ln lf s f) := rfl
      rw [hpk, hstep]
      set lbl := (lookup_or_assign (L.fingerprint f) s.hash_to_label).1 with hlbl
      set cache1 := (lookup_or_assign (L.fingerprint f) s.hash_to_label).2 with hcache1
      set s1 : LSt :=
        { run := { s.run with
            checks := s.run.checks + 1
            processed := s.run.processed + 1
            exports := s.run.exports ++
              (process_frame p.options L f ln lf s.hash_to_label).exports_made
            total_unique :=
              if s.cell_count < cellNumOf lbl then s.run.total_unique + 1
              else s.run.total_unique }
          entries := s.entries ++ [⟨f - p.start_frame, lbl⟩]
          hash_to_label := cache1
          cell_count :=
            if s.cell_count < cellNumOf lbl then cellNumOf lbl else s.cell_count
          last_was_stop := false } with hs1
      have hwf1 : WFCache cache1 :=
        lookup_or_assign_cache_wf s.hash_to_label (L.fingerprint f) hwf
      obtain ⟨c1, c2, c3, ⟨new, hnew, hoffs, hcells⟩, c5, c6, c7⟩ := ih s1 h0 hwf1 herest
      have hfps : nonstop_fps L (f :: rest) = L.fingerprint f :: nonstop_fps L rest := by
        simp [nonstop_fps, hstop']
      refine ⟨c1, c2, ?_, ?_, ?_, ?_, ?_⟩
      · rw [c3, hfps]
        simp only [dedup_cache]
      · refine ⟨⟨f - p.start_frame, lbl⟩ :: new, ?_, ?_, ?_⟩
        · rw [hnew]; simp [hs1]
        · intro e hme
          rcases List.mem_cons.1 hme with h | h
          · exact ⟨f, List.mem_cons_self f rest, by rw [h]⟩
          · obtain ⟨g, hg, hoff⟩ := hoffs e h
            exact ⟨g, List.mem_cons_of_mem f hg, hoff⟩
        · have hsplit : (⟨f - p.start_frame, lbl⟩ :: new : List Entry) =
              [⟨f - p.start_frame, lbl⟩] ++ new := rfl
          have hnn : lbl ≠ SYMBOL_NULL_CELL :=
            lookup_or_assign_label_ne_null s.hash_to_label (L.fingerprint f) hwf
          rw [hsplit, nonNullCells_append, nonNullCells_label_singleton _ _ hnn, hcells,
            hfps, dedup_labels]
          rfl
      · intro habs; simp at habs
      · intro g hg
        cases rest with
        | nil =>
          simp at hg
          subst hg
          exact hstop'.symm
        | cons b t => exact c6 g (by simpa using hg)
      · intro g hg hgstop
        cases rest with
        | nil =>
          simp at hg
          subst hg
          rw [hgstop] at hstop'
          simp at hstop'
        | cons b t => exact c7 g (by simpa using hg) hgstop

/-! ### Preservation and absorption lemmas -/

theorem key_step_preserved (p : RunParams) (L : AnimLayer) (ln lf : String) (s : LSt)
    (f : Int) :
    (key_step p L ln lf s f).run.doc = s.run.doc ∧
    (key_step p L ln lf s f).run.writes = s.run.writes ∧
    (key_step p L ln lf s f).run.static_exported = s.run.static_exported ∧
    (key_step p L ln lf s f).run.result.success = s.run.result.success ∧
    (key_step p L ln lf s f).run.result.output_path = s.run.result.output_path ∧
    (key_step p L ln lf s f).run.result.track_count = s.run.result.track_count ∧
    (key_step p L ln lf s f).run.result.frame_count = s.run.result.frame_count := by
  simp only [key_step]
  repeat' split
  all_goals exact ⟨rfl, rfl, rfl, rfl, rfl, rfl, rfl⟩

theorem pk_preserved (p : RunParams) (L : AnimLayer) (ln lf : String) :
    ∀ (fs : List Int) (s : LSt),
    (process_keyframes p L ln lf fs s).run.doc = s.run.doc ∧
    (process_keyframes p L ln lf fs s).run.writes = s.run.writes ∧
    (process_keyframes p L ln lf fs s).run.static_exported = s.run.static_exported ∧
    (process_keyframes p L ln lf fs s).run.result.success = s.run.result.success ∧
    (process_keyframes p L ln lf fs s).run.result.output_path = s.run.result.output_path ∧
    (process_keyframes p L ln lf fs s).run.result.track_count = s.run.result.track_count ∧
    (process_keyframes p L ln lf fs s).run.result.frame_count = s.run.result.frame_count := by
  intro fs
  induction fs with
  | nil => intro s; exact ⟨rfl, rfl, rfl, rfl, rfl, rfl, rfl⟩
  | cons f rest ih =>
    intro s
    obtain ⟨a1, a2, a3, a4, a5, a6, a7⟩ := key_step_preserved p L ln lf s f
    obtain ⟨b1, b2, b3, b4, b5, b6, b7⟩ := ih (key_step p L ln lf s f)
    exact ⟨b1.trans a1, b2.trans a2, b3.trans a3, b4.trans a4, b5.trans a5,
      b6.trans a6, b7.trans a7⟩

theorem process_layer_preserved (p : RunParams) (n : Nat) (L : AnimLayer) (st : RunSt) :
    (process_layer p n L st).writes = st.writes ∧
    (process_layer p n L st).static_exported = st.static_exported ∧
    (process_layer p n L st).result.success = st.result.success ∧
    (process_layer p n L st).result.output_path = st.result.output_path ∧
    (process_layer p n L st).result.track_count = st.result.track_count := by
  simp only [process_layer]
  split
  · exact ⟨rfl, rfl, rfl, rfl, rfl⟩
  obtain ⟨b1, b2, b3, b4, b5, b6, b7⟩ := pk_preserved p L
    (make_unique_name (sanitize_filename L.name) st.used_layer_names).1
    (pathJoin p.export_path (make_unique_name (sanitize_filename L.name) st.used_layer_names).1)
    L.keyframes
    ⟨{ st with used_layer_names :=
        (make_unique_name (sanitize_filename L.name) st.used_layer_names).2 }, [], [], 0, false⟩
  split
  · exact ⟨b2, b3, b4, b5, b6⟩
  · exact ⟨b2, b3, b4, b5, b6⟩

theorem process_layers_preserved (p : RunParams) :
    ∀ (Ls : List AnimLayer) (n : Nat) (st : RunSt),
    (process_layers p n Ls st).writes = st.writes ∧
    (process_layers p n Ls st).static_exported = st.static_exported ∧
    (process_layers p n Ls st).result.success = st.result.success ∧
    (process_layers p n Ls st).result.output_path = st.result.output_path ∧
    (process_layers p n Ls st).result.track_count = st.result.track_count := by
  intro Ls
  induction Ls with
  | nil => intro n st; exact ⟨rfl, rfl, rfl, rfl, rfl⟩
  | cons L rest ih =>
    intro n st
    obtain ⟨a1, a2, a3, a4, a5⟩ := process_layer_preserved p n L st
    obtain ⟨b1, b2, b3, b4, b5⟩ := ih (n + 1) (process_layer p n L st)
    exact ⟨b1.trans a1, b2.trans a2, b3.trans a3, b4.trans a4, b5.trans a5⟩

theorem process_static_preserved (p : RunParams) (S : StaticLayer) (st : RunSt) :
    (process_static p S st).writes = st.writes ∧
    (process_static p S st).doc = st.doc ∧
    (process_static p S st).result.success = st.result.success ∧
    (process_static p S st).result.output_path = st.result.output_path ∧
    (process_static p S st).result.track_count = st.result.track_count ∧
    (process_static p S st).result.frame_count = st.result.frame_count := by
  simp only [process_static]
  repeat' split
  all_goals exact ⟨rfl, rfl, rfl, rfl, rfl, rfl⟩

theorem process_statics_preserved (p : RunParams) :
    ∀ (Ss : List StaticLayer) (st : RunSt),
    (process_statics p Ss st).writes = st.writes ∧
    (process_statics p Ss st).doc = st.doc ∧
    (process_statics p Ss st).result.success = st.result.success ∧
    (process_statics p Ss st).result.output_path = st.result.output_path ∧
    (process_statics p Ss st).result.track_count = st.result.track_count ∧
    (process_statics p Ss st).result.frame_count = st.result.frame_count := by
  intro Ss
  induction Ss with
  | nil => intro st; exact ⟨rfl, rfl, rfl, rfl, rfl, rfl⟩
  | cons S rest ih =>
    intro st
    obtain ⟨a1, a2, a3, a4, a5, a6⟩ := process_static_preserved p S st
    obtain ⟨b1, b2, b3, b4, b5, b6⟩ := ih (process_static p S st)
    exact ⟨b1.trans a1, b2.trans a2, b3.trans a3, b4.trans a4, b5.trans a5, b6.trans a6⟩

theorem pk_absorb (p : RunParams) (L : AnimLayer) (ln lf : String) :
    ∀ (fs : List Int) (s : LSt), s.run.halted = true →
    process_keyframes p L ln lf fs s = s := by
  intro fs
  induction fs with
  | nil => intro s _; rfl
  | cons f rest ih =>
    intro s h
    have : process_keyframes p L ln lf (f :: rest) s =
        process_keyframes p L ln lf rest (key_step p L ln lf s f) := rfl
    rw [this, key_step_of_halted p L ln lf s f h, ih s h]

theorem process_layer_absorb (p : RunParams) (n : Nat) (L : AnimLayer) (st : RunSt)
    (h : st.halted = true) : process_layer p n L st = st := by
  rw [process_layer, if_pos h]

theorem process_layers_absorb (p : RunParams) :
    ∀ (Ls : List AnimLayer) (n : Nat) (st : RunSt), st.halted = true →
    process_layers p n Ls st = st := by
  intro Ls
  induction Ls with
  | nil => intro n st _; rfl
  | cons L rest ih =>
    intro n st h
    have : process_layers p n (L :: rest) st =
        process_layers p (n + 1) rest (process_layer p n L st) := rfl
    rw [this, process_layer_absorb p n L st h, ih (n + 1) st h]

theorem process_static_absorb (p : RunParams) (S : StaticLayer) (st : RunSt)
    (h : st.halted = true) : process_static p S st = st := by
  rw [process_static, if_pos h]

theorem process_statics_absorb (p : RunParams) :
    ∀ (Ss : List StaticLayer) (st : RunSt), st.halted = true →
    process_statics p Ss st = st := by
  intro Ss
  induction Ss with
  | nil => intro st _; rfl
  | cons S rest ih =>
    intro st h
    have : process_statics p (S :: rest) st =
        process_statics p rest (process_static p S st) := rfl
    rw [this, process_static_absorb p S st h, ih st h]

/-! ### Characterization of one processed layer -/

/-- With no cancellation and all exports succeeding, processing one
animated layer appends exactly one track, whose non-null cells are the
pure deduplication labels of the layer's non-stop fingerprints computed
from a fresh empty cache, and whose entries end in the terminator unless
the last keyframe is a stop frame. -/
theorem process_layer_spec (p : RunParams) (L : AnimLayer) (n : Nat) (st : RunSt)
    (h0 : st.halted = false) (hc : ∀ k, p.cancel k = false)
    (he : ∀ f ∈ L.keyframes, L.export_ok f = true) :
    ∃ es : List Entry,
      (process_layer p n L st).doc.tracks = st.doc.tracks ++
        [⟨(make_unique_name (sanitize_filename L.name) st.used_layer_names).1, n, es⟩] ∧
      (process_layer p n L st).halted = false ∧
      nonNullCells es = dedup_labels (nonstop_fps L L.keyframes) [] ∧
      ((∀ f, L.keyframes.getLast? = some f → L.is_stop f = false) →
        ∃ body, es = body ++ [⟨duration p, SYMBOL_NULL_CELL⟩] ∧
          ∀ e ∈ body, ∃ f ∈ L.keyframes, e.offset = f - p.start_frame) ∧
      (∀ f, L.keyframes.getLast? = some f → L.is_stop f = true →
        es.getLast? = some ⟨f - p.start_frame, SYMBOL_NULL_CELL⟩ ∧
        ∀ e ∈ es, ∃ g ∈ L.keyframes, e.offset = g - p.start_frame) := by
  simp only [process_layer]
  rw [if_neg (by simp [h0])]
  obtain ⟨c1, c2, c3, ⟨new, hnew, hoffs, hcells⟩, c5, c6, c7⟩ :=
    pk_master p L (make_unique_name (sanitize_filename L.name) st.used_layer_names).1
      (pathJoin p.export_path (make_unique_name (sanitize_filename L.name) st.used_layer_names).1)
      hc L.keyframes
      ⟨{ st with used_layer_names :=
          (make_unique_name (sanitize_filename L.name) st.used_layer_names).2 },
        [], [], 0, false⟩
      h0 WFCache_nil he
  obtain ⟨hdoc, -, -, -, -, -, -⟩ :=
    pk_preserved p L (make_unique_name (sanitize_filename L.name) st.used_layer_names).1
      (pathJoin p.export_path (make_unique_name (sanitize_filename L.name) st.used_layer_names).1)
      L.keyframes
      ⟨{ st with used_layer_names :=
          (make_unique_name (sanitize_filename L.name) st.used_layer_names).2 },
        [], [], 0, false⟩
  set s := process_keyframes p L
      (make_unique_name (sanitize_filename L.name) st.used_layer_names).1
      (pathJoin p.export_path (make_unique_name (sanitize_filename L.name) st.used_layer_names).1)
      L.keyframes
      ⟨{ st with used_layer_names :=
          (make_unique_name (sanitize_filename L.name) st.used_layer_names).2 },
        [], [], 0, false⟩ with hs
  rw [if_neg (by simp [c1])]
  have hentries : s.entries = new := by
    rw [hnew]; rfl
  refine ⟨if s.last_was_stop then s.entries else add_track_terminator s.entries (duration p),
    ?_, c1, ?_, ?_, ?_⟩
  · show s.run.doc.tracks ++ _ = st.doc.tracks ++ _
    rw [hdoc]
  · by_cases hl : s.last_was_stop
    · rw [if_pos hl, hentries, hcells]
    · rw [if_neg hl, add_track_terminator, nonNullCells_append, nonNullCells_null_singleton,
        hentries, hcells]
      simp
  · intro hnostop
    have hlast : s.last_was_stop = false := by
      cases hl : L.keyframes.getLast? with
      | none => exact c5 hl
      | some f => rw [c6 f hl]; exact hnostop f hl
    rw [if_neg (by simp [hlast]), add_track_terminator, hentries]
    exact ⟨new, rfl, hoffs⟩
  · intro f hf hstopf
    have hlast : s.last_was_stop = true := by rw [c6 f hf]; exact hstopf
    rw [if_pos hlast, hentries]
    refine ⟨?_, ?_⟩
    · rw [← hentries]; exact c7 f hf hstopf
    · exact hoffs

/-! ### Claim theorems -/

theorem dedup_labels_get (fps : List Nat) (k : Nat) (hk : k < (dedup_labels fps []).length) :
    (dedup_labels fps []).get ⟨k, hk⟩ =
      toString ((first_seen fps).indexOf
        (fps.get ⟨k, by rwa [dedup_labels_length] at hk⟩) + 1) := by
  have hk' : k < fps.length := by rwa [dedup_labels_length] at hk
  rw [List.get_eq_getElem, List.get_eq_getElem]
  simp only [dedup_labels_nil_spec fps, List.getElem_map]

/-- Claim C1: in one track, two frames receive the same cell label iff
their fingerprints are equal; the n-th distinct fingerprint receives the
label `str(n)`; and each processed layer's track is labelled from a fresh
empty deduplication cache, so labels restart at 1 per track and are never
shared across tracks. -/
theorem claim_C1 (fps : List Nat) (i j : Nat)
    (hi : i < (dedup_labels fps []).length) (hj : j < (dedup_labels fps []).length)
    (p : RunParams) (L : AnimLayer) (n : Nat) (st : RunSt)
    (h0 : st.halted = false) (hc : ∀ k, p.cancel k = false)
    (he : ∀ f ∈ L.keyframes, L.export_ok f = true) :
    (dedup_labels fps []).length = fps.length ∧
    ((dedup_labels fps []).get ⟨i, hi⟩ = (dedup_labels fps []).get ⟨j, hj⟩ ↔
      fps.get ⟨i, by rwa [dedup_labels_length] at hi⟩ =
        fps.get ⟨j, by rwa [dedup_labels_length] at hj⟩) ∧
    (dedup_labels fps []).get ⟨i, hi⟩ =
      toString ((first_seen fps).indexOf
        (fps.get ⟨i, by rwa [dedup_labels_length] at hi⟩) + 1) ∧
    (∃ es : List Entry,
      (process_layer p n L st).doc.tracks = st.doc.tracks ++
        [⟨(make_unique_name (sanitize_filename L.name) st.used_layer_names).1, n, es⟩] ∧
      nonNullCells es = dedup_labels (nonstop_fps L L.keyframes) []) := by
  have hi' : i < fps.length := by rwa [dedup_labels_length] at hi
  have hj' : j < fps.length := by rwa [dedup_labels_length] at hj
  refine ⟨dedup_labels_length fps [], ?_, dedup_labels_get fps i hi, ?_⟩
  · rw [dedup_labels_get fps i hi, dedup_labels_get fps j hj]
    constructor
    · intro h
      have hidx := natToString_injective (congrArg (fun t => t) h)
      simp only [Nat.add_right_cancel_iff] at hidx
      have hidx' : (first_seen fps).indexOf (fps.get ⟨i, hi'⟩) =
          (first_seen fps).indexOf (fps.get ⟨j, hj'⟩) := by omega
      have hmi : fps.get ⟨i, hi'⟩ ∈ first_seen fps :=
        (mem_first_seen_from fps [] _).2 (Or.inr (fps.get_mem _ _))
      have hmj : fps.get ⟨j, hj'⟩ ∈ first_seen fps :=
        (mem_first_seen_from fps [] _).2 (Or.inr (fps.get_mem _ _))
      have h1 := List.indexOf_get (a := fps.get ⟨i, hi'⟩) (l := first_seen fps)
        (List.indexOf_lt_length.2 hmi)
      have h2 := List.indexOf_get (a := fps.get ⟨j, hj'⟩) (l := first_seen fps)
        (List.indexOf_lt_length.2 hmj)
      rw [← h1, ← h2]
      congr 1
      exact Fin.ext hidx'
    · intro h
      rw [h]
  · obtain ⟨es, h1, _, h3, _, _⟩ := process_layer_spec p L n st h0 hc he
    exact ⟨es, h1, h3⟩

/-- Claim C2: for every keyframe sequence (including the empty one), the
produced track's entries end with exactly one null-cell entry at
`offset = duration` — every other entry has a strictly smaller offset —
unless the last processed keyframe was itself a stop frame, in which case
no terminator is appended after the stop entry. -/
theorem claim_C2 (p : RunParams) (L : AnimLayer) (n : Nat) (st : RunSt)
    (h0 : st.halted = false) (hc : ∀ k, p.cancel k = false)
    (he : ∀ f ∈ L.keyframes, L.export_ok f = true)
    (hb : ∀ f ∈ L.keyframes, f ≤ p.end_frame) :
    ∃ es : List Entry,
      (process_layer p n L st).doc.tracks = st.doc.tracks ++
        [⟨(make_unique_name (sanitize_filename L.name) st.used_layer_names).1, n, es⟩] ∧
      ((∀ f, L.keyframes.getLast? = some f → L.is_stop f = false) →
        ∃ body, es = body ++ [⟨duration p, SYMBOL_NULL_CELL⟩] ∧
          ∀ e ∈ body, e.offset < duration p) ∧
      (∀ f, L.keyframes.getLast? = some f → L.is_stop f = true →
        es.getLast? = some ⟨f - p.start_frame, SYMBOL_NULL_CELL⟩ ∧
        ∀ e ∈ es, e.offset < duration p) := by
  obtain ⟨es, h1, _, _, h4, h5⟩ := process_layer_spec p L n st h0 hc he
  have hsmall : ∀ (e : Entry), (∃ f ∈ L.keyframes, e.offset = f - p.start_frame) →
      e.offset < duration p := by
    rintro e ⟨f, hf, hoff⟩
    have := hb f hf
    rw [hoff, duration]
    omega
  refine ⟨es, h1, ?_, ?_⟩
  · intro hnostop
    obtain ⟨body, hbdy, hoffs⟩ := h4 hnostop
    exact ⟨body, hbdy, fun e he' => hsmall e (hoffs e he')⟩
  · intro f hf hstopf
    obtain ⟨hlast, hoffs⟩ := h5 f hf hstopf
    exact ⟨hlast, fun e he' => hsmall e (hoffs e he')⟩

/-- Claim C3 (amended): a layer with an empty keyframe sequence produces a
track with exactly one entry, the terminator null cell at
`offset = duration` (not offset 0). -/
theorem claim_C3_amended (p : RunParams) (L : AnimLayer) (n : Nat) (st : RunSt)
    (h0 : st.halted = false) (hc : ∀ k, p.cancel k = false)
    (hkf : L.keyframes = []) :
    ∃ nm, (process_layer p n L st).doc.tracks = st.doc.tracks ++
      [⟨nm, n, [⟨duration p, SYMBOL_NULL_CELL⟩]⟩] := by
  obtain ⟨es, h1, _, _, h4, _⟩ := process_layer_spec p L n st h0 hc
    (by rw [hkf]; intro f hf; simp at hf)
  obtain ⟨body, hbdy, hoffs⟩ := h4 (by rw [hkf]; intro f hf; simp at hf)
  have hbody : body = [] := by
    cases body with
    | nil => rfl
    | cons e t =>
      obtain ⟨f, hf, -⟩ := hoffs e (List.mem_cons_self e t)
      rw [hkf] at hf
      simp at hf
  rw [hbody] at hbdy
  simp only [List.nil_append] at hbdy
  exact ⟨(make_unique_name (sanitize_filename L.name) st.used_layer_names).1,
    by rw [h1, hbdy]⟩

/-- Claim C4: at a stop frame the engine appends the null-cell entry at
the relative offset, leaves the deduplication cache untouched, exports no
image, does not halt, records the stop, and keyframe iteration continues
with the remaining keyframes. -/
theorem claim_C4 (p : RunParams) (L : AnimLayer) (ln lf : String) (s : LSt)
    (frame : Int) (rest : List Int)
    (h0 : s.run.halted = false) (h1 : p.cancel s.run.checks = false)
    (h2 : L.is_stop frame = true) :
    (key_step p L ln lf s frame).entries =
      s.entries ++ [⟨frame - p.start_frame, SYMBOL_NULL_CELL⟩] ∧
    (key_step p L ln lf s frame).hash_to_label = s.hash_to_label ∧
    (key_step p L ln lf s frame).run.exports = s.run.exports ∧
    (key_step p L ln lf s frame).run.halted = false ∧
    (key_step p L ln lf s frame).last_was_stop = true ∧
    process_keyframes p L ln lf (frame :: rest) s =
      process_keyframes p L ln lf rest (key_step p L ln lf s frame) := by
  refine ⟨?_, ?_, ?_, ?_, ?_, rfl⟩
  · rw [key_step_stop p L ln lf s frame h0 h1 h2]
  · rw [key_step_stop p L ln lf s frame h0 h1 h2]
  · rw [key_step_stop p L ln lf s frame h0 h1 h2]
  · rw [key_step_stop p L ln lf s frame h0 h1 h2]; exact h0
  · rw [key_step_stop p L ln lf s frame h0 h1 h2]

/-- Claim C5: when the image export of a new (first-seen) fingerprint
fails, the run takes its fatal early return with the error message naming
the frame and the layer, the result stays unsuccessful, and no further
keyframes, animated layers or static layers are processed. -/
theorem claim_C5 (p : RunParams) (L : AnimLayer) (ln lf : String) (s : LSt)
    (frame : Int)
    (h0 : s.run.halted = false) (h1 : p.cancel s.run.checks = false)
    (h2 : L.is_stop frame = false)
    (h3 : s.hash_to_label.lookup (L.fingerprint frame) = none)
    (h4 : L.export_ok frame = false)
    (h5 : s.run.result.success = false) :
    (key_step p L ln lf s frame).run.halted = true ∧
    (key_step p L ln lf s frame).run.result.error_message =
      "Failed to export frame " ++ toString frame ++ " of " ++ ln ∧
    (key_step p L ln lf s frame).run.result.success = false ∧
    (∀ (fs : List Int) (t : LSt), t.run.halted = true →
      process_keyframes p L ln lf fs t = t) ∧
    (∀ (m : Nat) (M : AnimLayer) (u : RunSt), u.halted = true →
      process_layer p m M u = u) ∧
    (∀ (S : StaticLayer) (u : RunSt), u.halted = true →
      process_static p S u = u) := by
  refine ⟨?_, ?_, ?_, pk_absorb p L ln lf,
    fun m M u hu => process_layer_absorb p m M u hu,
    fun S u hu => process_static_absorb p S u hu⟩
  · rw [key_step_export_fail p L ln lf s frame h0 h1 h2 h3 h4]
  · rw [key_step_export_fail p L ln lf s frame h0 h1 h2 h3 h4]
    rfl
  · rw [key_step_export_fail p L ln lf s frame h0 h1 h2 h3 h4]
    exact h5

theorem process_static_go (p : RunParams) (S : StaticLayer) (st : RunSt)
    (h0 : st.halted = false) (h1 : p.cancel st.checks = false) :
    process_static p S st =
      (let r := make_unique_name (sanitize_filename S.name) st.used_layer_names
       let st' := { st with
          checks := st.checks + 1
          processed := st.processed + 1
          used_layer_names := r.2
          exports := st.exports ++
            [(p.start_frame, pathJoin p.export_path (r.1 ++ "." ++ p.options.image_format))] }
       if S.export_ok then { st' with static_exported := st'.static_exported + 1 }
       else st') := by
  rw [process_static, if_neg (by simp [h0]), if_neg (by simp [h1])]

theorem process_static_no_halt (p : RunParams) (S : StaticLayer) (st : RunSt)
    (h0 : st.halted = false) (hc : ∀ k, p.cancel k = false) :
    (process_static p S st).halted = false := by
  rw [process_static_go p S st h0 (hc st.checks)]
  dsimp only
  split
  · exact h0
  · exact h0

theorem process_statics_no_halt (p : RunParams) (hc : ∀ k, p.cancel k = false) :
    ∀ (Ss : List StaticLayer) (st : RunSt), st.halted = false →
    (process_statics p Ss st).halted = false := by
  intro Ss
  induction Ss with
  | nil => intro st h0; exact h0
  | cons S rest ih =>
    intro st h0
    exact ih (process_static p S st) (process_static_no_halt p S st h0 hc)

theorem run_export_statics_success (q : RunParams) (hc : ∀ k, q.cancel k = false)
    (ha : q.animated_layers = []) (hs : static_layers_of q ≠ []) :
    (run_export q).result.success = true := by
  have hcond : (q.animated_layers.isEmpty && (static_layers_of q).isEmpty) = false := by
    cases h : static_layers_of q with
    | nil => exact absurd h hs
    | cons a t => simp [h]
  rw [run_export]
  simp only [hcond, Bool.false_eq_true, if_false]
  have hlayers : process_layers q 0 q.animated_layers (initial_state q) = initial_state q := by
    rw [ha]
    rfl
  rw [hlayers]
  have hh : (process_statics q (static_layers_of q) (initial_state q)).halted = false :=
    process_statics_no_halt q hc (static_layers_of q) (initial_state q) rfl
  rw [if_neg (by simp [hh])]

/-- Claim C6: each static layer has exactly the frame at the range start
exported, as a single image directly in the export directory; an export
failure is non-fatal (no halt, no error message recorded), and a run whose
work is static layers finishes successfully regardless of such failures. -/
theorem claim_C6 (p : RunParams) (S : StaticLayer) (st : RunSt)
    (h0 : st.halted = false) (h1 : p.cancel st.checks = false) :
    (process_static p S st).exports = st.exports ++
      [(p.start_frame, pathJoin p.export_path
        ((make_unique_name (sanitize_filename S.name) st.used_layer_names).1 ++ "." ++
          p.options.image_format))] ∧
    (process_static p S st).halted = false ∧
    (process_static p S st).result.error_message = st.result.error_message ∧
    (S.export_ok = false →
      (process_static p S st).static_exported = st.static_exported) ∧
    (S.export_ok = true →
      (process_static p S st).static_exported = st.static_exported + 1) ∧
    (∀ q : RunParams, (∀ k, q.cancel k = false) → q.animated_layers = [] →
      static_layers_of q ≠ [] → (run_export q).result.success = true) := by
  rw [process_static_go p S st h0 h1]
  dsimp only
  refine ⟨?_, ?_, ?_, ?_, ?_, fun q hc ha hs => run_export_statics_success q hc ha hs⟩
  · split
    · rfl
    · rfl
  · split
    · exact h0
    · exact h0
  · split
    · rfl
    · rfl
  · intro hfail
    rw [if_neg (by simp [hfail])]
  · intro hok
    rw [if_pos hok]

/-- Claim C7: cancellation is polled exactly once per unit of work (per
keyframe and per static layer); a positive poll halts immediately with the
dedicated cancellation message and without performing any of the unit's
work; and the cancellation message differs from every failure message the
run can produce. -/
theorem claim_C7 (p : RunParams) (L : AnimLayer) (ln lf : String) (s : LSt)
    (frame : Int) (S : StaticLayer) (st : RunSt)
    (h0 : s.run.halted = false) (h0' : st.halted = false) :
    (key_step p L ln lf s frame).run.checks = s.run.checks + 1 ∧
    (process_static p S st).checks = st.checks + 1 ∧
    (p.cancel s.run.checks = true →
      (key_step p L ln lf s frame).run.halted = true ∧
      (key_step p L ln lf s frame).run.result.error_message = cancelMsg ∧
      (key_step p L ln lf s frame).entries = s.entries ∧
      (key_step p L ln lf s frame).run.exports = s.run.exports ∧
      (key_step p L ln lf s frame).run.processed = s.run.processed ∧
      (key_step p L ln lf s frame).hash_to_label = s.hash_to_label) ∧
    (p.cancel st.checks = true →
      (process_static p S st).halted = true ∧
      (process_static p S st).result.error_message = cancelMsg ∧
      (process_static p S st).exports = st.exports ∧
      (process_static p S st).static_exported = st.static_exported) ∧
    cancelMsg ≠ noLayersMsg ∧
    (∀ (f : Int) (nm : String), cancelMsg ≠ failMsg f nm) := by
  refine ⟨?_, ?_, ?_, ?_, by decide, ?_⟩
  · by_cases hcan : p.cancel s.run.checks = true
    · rw [key_step_cancelled p L ln lf s frame h0 hcan]
    · have hcan' : p.cancel s.run.checks = false := by simpa using hcan
      rw [key_step, if_neg (by simp [h0]), if_neg (by simp [hcan'])]
      dsimp only
      split
      · rfl
      · split
        · rfl
        · rfl
  · by_cases hcan : p.cancel st.checks = true
    · rw [process_static, if_neg (by simp [h0']), if_pos hcan]
    · have hcan' : p.cancel st.checks = false := by simpa using hcan
      rw [process_static_go p S st h0' hcan']
      dsimp only
      split
      · rfl
      · rfl
  · intro hcan
    rw [key_step_cancelled p L ln lf s frame h0 hcan]
    exact ⟨rfl, rfl, rfl, rfl, rfl, rfl⟩
  · intro hcan
    rw [process_static, if_neg (by simp [h0']), if_pos hcan]
    exact ⟨rfl, rfl, rfl, rfl⟩
  · intro f nm h
    have h2 : cancelMsg.data.head? = (failMsg f nm).data.head? :=
      congrArg (fun t : String => t.data.head?) h
    have e1 : cancelMsg.data.head? = some 'E' := rfl
    have e2 : (failMsg f nm).data.head? = some 'F' := rfl
    rw [e1, e2] at h2
    exact absurd h2 (by decide)

/-- Claim C8: the built filename is the configured non-empty parts joined
with the separator in the order prefix, layer name (only for the
name-plus-sequence variant), suffix, sequence number, followed by the
extension; the sequence number is zero-padded to the fixed width 4. -/
theorem claim_C8 (opts : ExportOptions) (layer_name : String) (n : Nat) :
    build_filename opts layer_name n =
      String.intercalate opts.file_separator
        ((if opts.file_pfx ≠ "" then [opts.file_pfx] else []) ++
         (if opts.file_format = FORMAT_LAYER_SEQ then [layer_name] else []) ++
         (if opts.file_suffix ≠ "" then [opts.file_suffix] else []) ++
         [int_to_str n]) ++ "." ++ opts.image_format ∧
    (int_to_str n).length = max 4 (toString n).length ∧
    int_to_str n = String.mk (List.replicate (4 - (toString n).length) '0' ++
      (toString n).data) := by
  refine ⟨?_, ?_, rfl⟩
  · rw [build_filename]
    by_cases h1 : opts.file_pfx = "" <;>
      by_cases h2 : opts.file_format = FORMAT_LAYER_SEQ <;>
      by_cases h3 : opts.file_suffix = "" <;>
      simp [h1, h2, h3]
  · have hlen : (int_to_str n).length =
        (4 - (toString n).length) + (toString n).length := by
      show (List.replicate (4 - (toString n).length) '0' ++ (toString n).data).length = _
      rw [List.length_append, List.length_replicate]
      rfl
    rw [hlen]
    omega

/-- Claim C9: the public `export()` catches every exception of the run and
turns it into a result with `success = false` and the exception's text as
`error_message`, preserving the other result fields; a normal run result
is returned unchanged. -/
theorem claim_C9 (r : ExportResult) (e : String) (rp : ExportResult) :
    export_entry (Except.ok r) = r ∧
    (export_entry (Except.error (e, rp))).success = false ∧
    (export_entry (Except.error (e, rp))).error_message = e ∧
    (export_entry (Except.error (e, rp))).output_path = rp.output_path ∧
    (export_entry (Except.error (e, rp))).track_count = rp.track_count ∧
    (export_entry (Except.error (e, rp))).frame_count = rp.frame_count ∧
    (export_entry (Except.error (e, rp))).unique_frames_exported =
      rp.unique_frames_exported :=
  ⟨rfl, rfl, rfl, rfl, rfl, rfl, rfl⟩

/-- Claim C10: the XDTS document is written at most once per run, only
when the whole run completes; on any early return (fatal frame failure,
cancellation, or no eligible layers) it is never written and the result
keeps `success = false`, `output_path = ""` and `track_count = 0`. -/
theorem claim_C10 (p : RunParams) :
    (run_export p).writes ≤ 1 ∧
    ((run_export p).halted = true →
      (run_export p).writes = 0 ∧ (run_export p).result.success = false ∧
      (run_export p).result.output_path = "" ∧
      (run_export p).result.track_count = 0) ∧
    ((run_export p).halted = false →
      (run_export p).writes = 1 ∧ (run_export p).result.success = true) := by
  by_cases hempty : (p.animated_layers.isEmpty && (static_layers_of p).isEmpty) = true
  · rw [run_export]
    simp only [hempty, if_true]
    exact ⟨Nat.zero_le 1, fun _ => ⟨rfl, rfl, rfl, rfl⟩, fun h => by simp at h⟩
  · have hcond : (p.animated_layers.isEmpty && (static_layers_of p).isEmpty) = false := by
      simpa using hempty
    rw [run_export]
    simp only [hcond, Bool.false_eq_true, if_false]
    obtain ⟨s1, -, s3, s4, s5, -⟩ := process_statics_preserved p (static_layers_of p)
      (process_layers p 0 p.animated_layers (initial_state p))
    obtain ⟨l1, -, l3, l4, l5⟩ := process_layers_preserved p p.animated_layers 0
      (initial_state p)
    have hw : (process_statics p (static_layers_of p)
        (process_layers p 0 p.animated_layers (initial_state p))).writes = 0 :=
      (s1.trans l1).trans rfl
    have hsc : (process_statics p (static_layers_of p)
        (process_layers p 0 p.animated_layers (initial_state p))).result.success = false :=
      (s3.trans l3).trans rfl
    have hop : (process_statics p (static_layers_of p)
        (process_layers p 0 p.animated_layers (initial_state p))).result.output_path = "" :=
      (s4.trans l4).trans rfl
    have htc : (process_statics p (static_layers_of p)
        (process_layers p 0 p.animated_layers (initial_state p))).result.track_count = 0 :=
      (s5.trans l5).trans rfl
    by_cases hh : (process_statics p (static_layers_of p)
        (process_layers p 0 p.animated_layers (initial_state p))).halted = true
    · rw [if_pos hh]
      exact ⟨by omega, fun _ => ⟨hw, hsc, hop, htc⟩, fun h => absurd hh (by simp [h])⟩
    · rw [if_neg hh]
      have hh' : (process_statics p (static_layers_of p)
          (process_layers p 0 p.animated_layers (initial_state p))).halted = false := by
        simpa using hh
      refine ⟨?_, ?_, ?_⟩
      · show (process_statics p (static_layers_of p)
          (process_layers p 0 p.animated_layers (initial_state p))).writes + 1 ≤ 1
        omega
      · intro habs
        rw [show ({ process_statics p (static_layers_of p)
            (process_layers p 0 p.animated_layers (initial_state p)) with
            writes := _, result := _ } : RunSt).halted =
          (process_statics p (static_layers_of p)
            (process_layers p 0 p.animated_layers (initial_state p))).halted from rfl] at habs
        rw [hh'] at habs
        exact absurd habs (by simp)
      · intro _
        constructor
        · show (process_statics p (static_layers_of p)
            (process_layers p 0 p.animated_layers (initial_state p))).writes + 1 = 1
          omega
        · rfl

/-! ### Concrete run inputs for witnesses and counterexamples -/

/-- A two-keyframe animated layer whose frames share one fingerprint. -/
def L1 : AnimLayer := ⟨"A", [0, 1], fun _ => false, fun _ => 3, fun _ => true⟩

/-- A run over range `[0, 1]` processing `L1`, never cancelled. -/
def p1 : RunParams := ⟨"out", {}, [L1], [], 0, 1, fun _ => false⟩

/-- A fresh run state with an empty document of duration 2. -/
def st1 : RunSt := { doc := create_xdts_document 2 }

/-- An animated layer with no keyframes at all. -/
def L0 : AnimLayer := ⟨"B", [], fun _ => false, fun _ => 0, fun _ => true⟩

/-- A run over range `[0, 23]` (duration 24) processing only `L0`. -/
def p3 : RunParams := ⟨"out", {}, [L0], [], 0, 23, fun _ => false⟩

/-- A fresh run state with an empty document of duration 24. -/
def st3 : RunSt := { doc := create_xdts_document 24 }

/-- An animated layer whose only keyframe is blank (a stop frame). -/
def L4 : AnimLayer := ⟨"E", [0], fun _ => true, fun _ => 0, fun _ => true⟩

/-- An animated layer whose only keyframe's image export fails. -/
def LF : AnimLayer := ⟨"C", [0], fun _ => false, fun _ => 9, fun _ => false⟩

/-- A fresh keyframe-loop state over `st1`. -/
def s4 : LSt := ⟨st1, [], [], 0, false⟩

/-- A static layer whose single-image export fails. -/
def S6 : StaticLayer := ⟨"D", false⟩

/-- A run with only the failing static layer `S6`, never cancelled. -/
def p6 : RunParams := ⟨"out", { include_static := true }, [], [S6], 0, 0, fun _ => false⟩

/-- A fresh run state with an empty document of duration 1. -/
def st6 : RunSt := { doc := create_xdts_document 1 }

/-- A run whose cancellation callback always answers `true`. -/
def p7 : RunParams := ⟨"out", {}, [], [], 0, 0, fun _ => true⟩

/-! ### Counterexample for claim C3 -/

/-- Claim C3 counterexample: with zero keyframes and duration 24, the
produced track's single entry is the null cell at offset 24 (the
duration), not at offset 0 as the claim states. -/
theorem claim_C3_counterexample :
    (run_export p3).doc.tracks.map Track.entries =
      [[⟨24, SYMBOL_NULL_CELL⟩]] ∧
    (run_export p3).doc.tracks.map Track.entries ≠
      [[⟨0, SYMBOL_NULL_CELL⟩]] :=
  ⟨by decide, by decide⟩

/-! ### Witnesses -/

/-- Witness for claim C1 at the fingerprint sequence `[5, 7, 5]` and one
concretely processed layer. -/
theorem claim_C1_witness :
    (dedup_labels [5, 7, 5] []).length = ([5, 7, 5] : List Nat).length ∧
    ((dedup_labels [5, 7, 5] []).get ⟨0, by decide⟩ =
        (dedup_labels [5, 7, 5] []).get ⟨2, by decide⟩ ↔
      ([5, 7, 5] : List Nat).get ⟨0, by decide⟩ =
        ([5, 7, 5] : List Nat).get ⟨2, by decide⟩) ∧
    (dedup_labels [5, 7, 5] []).get ⟨0, by decide⟩ =
      toString ((first_seen [5, 7, 5]).indexOf
        (([5, 7, 5] : List Nat).get ⟨0, by decide⟩) + 1) ∧
    (∃ es : List Entry,
      (process_layer p1 0 L1 st1).doc.tracks = st1.doc.tracks ++
        [⟨(make_unique_name (sanitize_filename L1.name) st1.used_layer_names).1, 0, es⟩] ∧
      nonNullCells es = dedup_labels (nonstop_fps L1 L1.keyframes) []) :=
  claim_C1 [5, 7, 5] 0 2 (by decide) (by decide) p1 L1 0 st1 rfl
    (fun _ => rfl) (fun f _ => rfl)

/-- Witness for claim C2 at the concrete layer `L1`. -/
theorem claim_C2_witness :
    ∃ es : List Entry,
      (process_layer p1 0 L1 st1).doc.tracks = st1.doc.tracks ++
        [⟨(make_unique_name (sanitize_filename L1.name) st1.used_layer_names).1, 0, es⟩] ∧
      ((∀ f, L1.keyframes.getLast? = some f → L1.is_stop f = false) →
        ∃ body, es = body ++ [⟨duration p1, SYMBOL_NULL_CELL⟩] ∧
          ∀ e ∈ body, e.offset < duration p1) ∧
      (∀ f, L1.keyframes.getLast? = some f → L1.is_stop f = true →
        es.getLast? = some ⟨f - p1.start_frame, SYMBOL_NULL_CELL⟩ ∧
        ∀ e ∈ es, e.offset < duration p1) :=
  claim_C2 p1 L1 0 st1 rfl (fun _ => rfl) (fun f _ => rfl) (by decide)

/-- Witness for the amended claim C3 at the empty-keyframe layer `L0`. -/
theorem claim_C3_amended_witness :
    ∃ nm, (process_layer p3 0 L0 st3).doc.tracks = st3.doc.tracks ++
      [⟨nm, 0, [⟨duration p3, SYMBOL_NULL_CELL⟩]⟩] :=
  claim_C3_amended p3 L0 0 st3 rfl (fun _ => rfl) rfl

/-- Witness for claim C4 at the stop-frame layer `L4`. -/
theorem claim_C4_witness :
    (key_step p1 L4 L4.name (pathJoin p1.export_path L4.name) s4 0).entries =
      s4.entries ++ [⟨0 - p1.start_frame, SYMBOL_NULL_CELL⟩] ∧
    (key_step p1 L4 L4.name (pathJoin p1.export_path L4.name) s4 0).hash_to_label = s4.hash_to_label ∧
    (key_step p1 L4 L4.name (pathJoin p1.export_path L4.name) s4 0).run.exports = s4.run.exports ∧
    (key_step p1 L4 L4.name (pathJoin p1.export_path L4.name) s4 0).run.halted = false ∧
    (key_step p1 L4 L4.name (pathJoin p1.export_path L4.name) s4 0).last_was_stop = true ∧
    process_keyframes p1 L4 L4.name (pathJoin p1.export_path L4.name) [0] s4 =
      process_keyframes p1 L4 L4.name (pathJoin p1.export_path L4.name) [] (key_step p1 L4 L4.name (pathJoin p1.export_path L4.name) s4 0) :=
  claim_C4 p1 L4 L4.name (pathJoin p1.export_path L4.name) s4 0 [] rfl rfl rfl

/-- Witness for claim C5 at the failing-export layer `LF`. -/
theorem claim_C5_witness :
    (key_step p1 LF LF.name (pathJoin p1.export_path LF.name) s4 0).run.halted = true ∧
    (key_step p1 LF LF.name (pathJoin p1.export_path LF.name) s4 0).run.result.error_message =
      "Failed to export frame " ++ toString (0 : Int) ++ " of " ++ LF.name ∧
    (key_step p1 LF LF.name (pathJoin p1.export_path LF.name) s4 0).run.result.success = false ∧
    (∀ (fs : List Int) (t : LSt), t.run.halted = true →
      process_keyframes p1 LF LF.name (pathJoin p1.export_path LF.name) fs t = t) ∧
    (∀ (m : Nat) (M : AnimLayer) (u : RunSt), u.halted = true →
      process_layer p1 m M u = u) ∧
    (∀ (S : StaticLayer) (u : RunSt), u.halted = true →
      process_static p1 S u = u) :=
  claim_C5 p1 LF LF.name (pathJoin p1.export_path LF.name) s4 0 rfl rfl rfl rfl rfl rfl

/-- Witness for claim C6 at the failing static layer `S6`. -/
theorem claim_C6_witness :
    (process_static p6 S6 st6).exports = st6.exports ++
      [(p6.start_frame, pathJoin p6.export_path
        ((make_unique_name (sanitize_filename S6.name) st6.used_layer_names).1 ++ "." ++
          p6.options.image_format))] ∧
    (process_static p6 S6 st6).halted = false ∧
    (process_static p6 S6 st6).result.error_message = st6.result.error_message ∧
    (S6.export_ok = false →
      (process_static p6 S6 st6).static_exported = st6.static_exported) ∧
    (S6.export_ok = true →
      (process_static p6 S6 st6).static_exported = st6.static_exported + 1) ∧
    (∀ q : RunParams, (∀ k, q.cancel k = false) → q.animated_layers = [] →
      static_layers_of q ≠ [] → (run_export q).result.success = true) :=
  claim_C6 p6 S6 st6 rfl rfl

/-- Witness for claim C7 under an always-cancelling callback. -/
theorem claim_C7_witness :
    (key_step p7 L1 L1.name (pathJoin p7.export_path L1.name) s4 0).run.checks = s4.run.checks + 1 ∧
    (process_static p7 S6 st6).checks = st6.checks + 1 ∧
    (p7.cancel s4.run.checks = true →
      (key_step p7 L1 L1.name (pathJoin p7.export_path L1.name) s4 0).run.halted = true ∧
      (key_step p7 L1 L1.name (pathJoin p7.export_path L1.name) s4 0).run.result.error_message = cancelMsg ∧
      (key_step p7 L1 L1.name (pathJoin p7.export_path L1.name) s4 0).entries = s4.entries ∧
      (key_step p7 L1 L1.name (pathJoin p7.export_path L1.name) s4 0).run.exports = s4.run.exports ∧
      (key_step p7 L1 L1.name (pathJoin p7.export_path L1.name) s4 0).run.processed = s4.run.processed ∧
      (key_step p7 L1 L1.name (pathJoin p7.export_path L1.name) s4 0).hash_to_label = s4.hash_to_label) ∧
    (p7.cancel st6.checks = true →
      (process_static p7 S6 st6).halted = true ∧
      (process_static p7 S6 st6).result.error_message = cancelMsg ∧
      (process_static p7 S6 st6).exports = st6.exports ∧
      (process_static p7 S6 st6).static_exported = st6.static_exported) ∧
    cancelMsg ≠ noLayersMsg ∧
    (∀ (f : Int) (nm : String), cancelMsg ≠ failMsg f nm) :=
  claim_C7 p7 L1 L1.name (pathJoin p7.export_path L1.name) s4 0 S6 st6 rfl rfl

/-- Witness for claim C10 at the concrete run `p3`, which completes. -/
theorem claim_C10_witness :
    (run_export p3).halted = false ∧ (run_export p3).writes = 1 ∧
    (run_export p3).result.success = true := by
  have h := claim_C10 p3
  have hh : (run_export p3).halted = false := by decide
  exact ⟨hh, (h.2.2 hh).1, (h.2.2 hh).2⟩

end KXdts

